import Mathlib

/-!
Verification development for the batched-environment driver of the
RL-Halite repository (`src/utils/batched_env.py`).

The file shallowly embeds the two components of that module:

* the `worker` function (lines 25-59): the loop body run in each worker
  subprocess, serving the command protocol against its private simulation
  instance; and
* the `BatchedEnv` coordinator class (lines 78-219): construction, `step`,
  `reset`, `seed`, `render`, `monitor`, `close` and the `step_counters`
  attribute.

Modelling choices, all taken from the source:

* The external simulation (a gym-style environment) is a record of fallible
  functions (`Gym`): a raised Python exception is an `Except.error`.
* A worker subprocess is collapsed into the simulation state it owns plus a
  liveness flag (`WState`): once a worker has exited (normal `close` or the
  `except` branch `pipe.close(); exit(-1)` of lines 56-59) its pipe never
  produces another message.  Because the parent also retains the worker-side
  pipe endpoints (`self._p_to_parents`, line 88), the parent end never sees
  EOF, so a `recv` from a dead or never-commanded worker blocks forever; this
  is the `PyOutcome.hang` outcome.
* `self._step_counters` is created with `dtype=np.int16` (line 109), so the
  in-place `+= 1` of line 121 wraps at 32767 in 16-bit two-complement
  arithmetic; `wrap16` models that reduction explicitly on `Int`.
* Each coordinator operation returns the list of `(worker index, command)`
  pairs it wrote to the pipes (the observable channel traffic) together with
  a `PyOutcome`: normal return, raised exception, or blocking forever.
* `info.copy()` (line 35) is the Python shallow dict copy; it is modelled on
  a small explicit heap (`Py` namespace) so that aliasing of nested mutable
  values is expressible.
-/

namespace RLHalite

/-- Reduction of an integer to a signed 16-bit value, the arithmetic that
numpy applies to the `dtype=np.int16` array `self._step_counters` on the
in-place increment of line 121. -/
def wrap16 (n : Int) : Int := (n + 32768) % 65536 - 32768

/-- The external gym-style simulation instance owned by one worker.  Every
method may raise (an `Except.error`), matching the fact that the worker body
wraps the whole serving loop in `try ... except Exception`. -/
structure Gym (σ α ω ρ ι : Type) where
  step : σ → α → Except String (σ × ω × ρ × Bool × ι)
  reset : σ → Except String (σ × ω)
  seed : σ → Option Int → Except String σ
  render : σ → Except String σ
  monitor : σ → Bool × Bool × String × Int → Except String σ
  action_space : String
  observation_space : String

/-- The wire commands of the protocol, the `(cmd, data)` pairs sent from the
coordinator to a worker (lines 33-55).  `other` stands for any command tag
not recognized by the worker loop (the final `else` of line 54). -/
inductive Cmd (α : Type) where
  | step (a : α)
  | reset
  | close
  | get_spaces
  | monitor (cfg : Bool × Bool × String × Int)
  | render
  | seed (s : Option Int)
  | other (tag : String)
  deriving DecidableEq

/-- The replies a worker can send back on its pipe. -/
inductive Reply (ω ρ ι : Type) where
  | stepR (ob : ω) (reward : ρ) (done : Bool) (info : ι)
  | resetR (ob : ω)
  | spacesR (action_space observation_space : String)
  deriving DecidableEq

variable {σ α ω ρ ι : Type}

/-- One iteration of the worker serving loop, lines 32-55 of the source: the
body of the `try` block executed for one received command.  `ic` is the
`info.copy()` operation applied on line 35.  The result is
`Except.error` exactly when the Python code would raise (including the
`raise NotImplementedError` for an unrecognized tag), `.ok none` for the
`close` command (`break`), and `.ok (some (s, reply?))` otherwise, where
`reply?` is the message sent back (`none` for the fire-and-forget
commands `monitor`, `render`, `seed`). -/
def serveCmd (g : Gym σ α ω ρ ι) (ic : ι → ι) (s : σ) :
    Cmd α → Except String (Option (σ × Option (Reply ω ρ ι)))
  | .step a => do
      let (s1, ob, r, d, info) ← g.step s a
      let total_info := ic info
      if d then
        let (s2, ob2) ← g.reset s1
        pure (some (s2, some (.stepR ob2 r d total_info)))
      else
        pure (some (s1, some (.stepR ob r d total_info)))
  | .reset => do
      let (s1, ob) ← g.reset s
      pure (some (s1, some (.resetR ob)))
  | .close => pure none
  | .get_spaces => pure (some (s, some (.spacesR g.action_space g.observation_space)))
  | .monitor cfg => do
      let s1 ← g.monitor s cfg
      pure (some (s1, none))
  | .render => do
      let s1 ← g.render s
      pure (some (s1, none))
  | .seed v => do
      let s1 ← g.seed s v
      pure (some (s1, none))
  | .other _ => .error "NotImplementedError"

/-- The externally visible effect of handing one command to a live worker:
either the loop continues with a new simulation state (having optionally
sent a reply), or the worker leaves the loop normally (`close`:
`pipe.close(); break`), or the `except` branch runs (`pipe.close();
exit(-1)`, lines 56-59): the worker terminates abnormally without replying. -/
inductive WStep (σ ω ρ ι : Type) where
  | cont (s : σ) (rep : Option (Reply ω ρ ι))
  | closed
  | crashed
  deriving DecidableEq

def workerHandle (g : Gym σ α ω ρ ι) (ic : ι → ι) (s : σ) (c : Cmd α) :
    WStep σ ω ρ ι :=
  match serveCmd g ic s c with
  | .error _ => .crashed
  | .ok none => .closed
  | .ok (some (s1, rep)) => .cont s1 rep

/-- Terminal status of a worker after consuming a finite prefix of its
command stream: still blocked on `pipe.recv()`, exited normally via `close`,
or exited abnormally via the `except` branch. -/
inductive WStatus where
  | waiting
  | closedOk
  | crashed
  deriving DecidableEq

/-- The full worker loop (`while True: cmd, data = pipe.recv(); ...`) run
over a finite list of received commands: the replies it writes to the pipe,
in order, together with its final status. -/
def workerRun (g : Gym σ α ω ρ ι) (ic : ι → ι) :
    σ → List (Cmd α) → List (Reply ω ρ ι) × WStatus
  | _, [] => ([], .waiting)
  | s, c :: cs =>
      match workerHandle g ic s c with
      | .cont s1 rep =>
          let rest := workerRun g ic s1 cs
          (rep.toList ++ rest.1, rest.2)
      | .closed => ([], .closedOk)
      | .crashed => ([], .crashed)

/-- Coordinator-side view of one worker process: either it is alive and its
simulation is in state `s`, or the process has exited (normally or
abnormally) and its pipe will never carry another reply. -/
inductive WState (σ : Type) where
  | alive (s : σ)
  | down
  deriving DecidableEq

/-- The attributes of a live (not yet closed) `BatchedEnv`: the worker pool
(standing for `self._ps` / `self._p_to_workers`), the int16 array
`self._step_counters`, the spaces fetched once from worker 0, and
`self._num_envs`. -/
structure Live (σ : Type) where
  workers : List (WState σ)
  step_counters : List Int
  action_space : String
  observation_space : String
  num_envs : Nat
  deriving DecidableEq

/-- Coordinator state: `close` (lines 162-164) assigns `None` to every
attribute, modelled by `none`. -/
abbrev Sys (σ : Type) := Option (Live σ)

/-- Result of a coordinator call: normal return, raised Python exception, or
blocking forever on a `pipe.recv()` that can never be served. -/
inductive PyOutcome (β : Type) where
  | ok (val : β)
  | exn (msg : String)
  | hang
  deriving DecidableEq

def PyOutcome.isExn {β : Type} : PyOutcome β → Bool
  | .exn _ => true
  | _ => false

/-- Post-compose a normal return with a pure function; exceptions and hangs
pass through. -/
def PyOutcome.map {β γ : Type} (f : β → γ) : PyOutcome β → PyOutcome γ
  | .ok b => .ok (f b)
  | .exn e => .exn e
  | .hang => .hang

/-- Deliver one command to one worker and run its loop body once: a dead
worker consumes nothing and never replies. -/
def applyCmd (g : Gym σ α ω ρ ι) (ic : ι → ι) (w : WState σ) (c : Cmd α) :
    WState σ × Option (Reply ω ρ ι) :=
  match w with
  | .down => (.down, none)
  | .alive s =>
      match workerHandle g ic s c with
      | .cont s1 rep => (.alive s1, rep)
      | .closed => (.down, none)
      | .crashed => (.down, none)

/-- `zip`-style delivery of a batch of commands to the pool, mirroring
`for pipe, action in zip(self._p_to_workers, actions)` (line 117): surplus
commands are silently dropped, surplus workers receive nothing (and hence
produce no reply). -/
def serveZip (g : Gym σ α ω ρ ι) (ic : ι → ι) :
    List (WState σ) → List (Cmd α) → List (WState σ × Option (Reply ω ρ ι))
  | ws, [] => ws.map (fun w => (w, none))
  | [], _ => []
  | w :: ws, c :: cs => applyCmd g ic w c :: serveZip g ic ws cs

/-- Masked delivery of `reset` commands, mirroring the list comprehension
of lines 142-143 that sends a reset to each pipe whose mask flag is set
(the `zip` truncates at the shorter of pool and mask). -/
def serveMasked (g : Gym σ α ω ρ ι) (ic : ι → ι) :
    List (WState σ) → List Bool → List (WState σ × Option (Reply ω ρ ι))
  | ws, [] => ws.map (fun w => (w, none))
  | [], _ => []
  | w :: ws, b :: bs =>
      (if b then applyCmd g ic w Cmd.reset else (w, none)) :: serveMasked g ic ws bs

/-- The barrier `[pipe.recv() for pipe in self._p_to_workers]` (line 119):
it returns only if every pipe yields a reply; a single missing reply blocks
the coordinator forever. -/
def collectAll {β : Type} (reps : List (Option β)) : Option (List β) :=
  if reps.all Option.isSome then some reps.reduceOption else none

/-- The masked barrier of lines 145-147: `recv` only from the flagged pipes
(within the `zip` truncation range); blocks forever if a flagged worker
never replies. -/
def collectMasked :
    List (WState σ × Option (Reply ω ρ ι)) → List Bool → Option (List (Reply ω ρ ι))
  | _, [] => some []
  | [], _ => some []
  | p :: ps, b :: bs =>
      if b then
        match p.2 with
        | none => none
        | some r => (collectMasked ps bs).map (fun l => r :: l)
      else collectMasked ps bs

/-- `states, rewards, dones, infos = zip(*results)` (line 120) for step
replies.  A reply of the wrong variant cannot occur in the strict
request/response protocol; it is mapped to `none`. -/
def unzipStep : List (Reply ω ρ ι) → Option (List ω × List ρ × List Bool × List ι)
  | [] => some ([], [], [], [])
  | .stepR ob r d i :: t =>
      (unzipStep t).map (fun q => (ob :: q.1, r :: q.2.1, d :: q.2.2.1, i :: q.2.2.2))
  | _ => none

/-- Extraction of the observations from reset replies. -/
def unzipReset : List (Reply ω ρ ι) → Option (List ω)
  | [] => some []
  | .resetR ob :: t => (unzipReset t).map (fun l => ob :: l)
  | _ => none

/-- The receive-and-stack tail of `BatchedEnv.step` (lines 119-120): block
until every pipe replied (else hang forever), then
`zip(*results)`-unpack, which raises on an empty result list. -/
def stackStepReplies (reps : Option (List (Reply ω ρ ι))) :
    PyOutcome (List ω × List ρ × List Bool × List ι) :=
  match reps with
  | none => .hang
  | some results =>
      match unzipStep results with
      | none => .exn "TypeError: unexpected reply payload"
      | some q =>
          match q.1 with
          | [] => .exn "ValueError: not enough values to unpack"
          | _ => .ok q

/-- The receive-and-stack tail of `BatchedEnv.reset` (lines 145-147 and
152): block until every awaited pipe replied, then `np.stack`, which raises
on an empty observation list. -/
def stackResetReplies (reps : Option (List (Reply ω ρ ι))) :
    PyOutcome (List ω) :=
  match reps with
  | none => .hang
  | some results =>
      match unzipReset results with
      | none => .exn "TypeError: unexpected reply payload"
      | some obsList =>
          match obsList with
          | [] => .exn "ValueError: need at least one array to stack"
          | _ => .ok obsList

/-- `np.count_nonzero(mask)` on a boolean mask (line 135). -/
def countTrue (m : List Bool) : Nat := m.count true

/-- `self._step_counters[mask] = 0` (line 140): zero the flagged entries. -/
def maskZero (cs : List Int) (m : List Bool) : List Int :=
  List.zipWith (fun c b => if b then (0 : Int) else c) cs m

/-- The channel traffic of the masked reset: one `reset` command per flagged
worker, in index order, truncated at the pool size by the `zip`. -/
def maskedSends (α : Type) (n : Nat) (m : List Bool) : List (Nat × Cmd α) :=
  ((List.range n).zip m).filterMap
    (fun p => if p.2 then some (p.1, (Cmd.reset : Cmd α)) else none)

namespace BatchedEnv

/-- `BatchedEnv.step` (lines 111-122).  No validation of `len(actions)` is
performed: the send loop `zip`-truncates, the barrier then waits on every
pipe, and only after all replies arrive does `self._step_counters += 1` run
(with int16 wraparound) before the stacked results are returned. -/
def step (g : Gym σ α ω ρ ι) (ic : ι → ι) (sys : Sys σ) (actions : List α) :
    List (Nat × Cmd α) × PyOutcome (Sys σ × (List ω × List ρ × List Bool × List ι)) :=
  match sys with
  | none => ([], .exn "TypeError: cannot iterate NoneType pipes")
  | some L =>
      let k := min L.workers.length actions.length
      let sends := ((actions.take k).map Cmd.step).enum
      let pairs := serveZip g ic L.workers (actions.map Cmd.step)
      (sends,
       (stackStepReplies (collectAll (pairs.map Prod.snd))).map
         (fun q =>
           (some { L with
                    workers := pairs.map Prod.fst,
                    step_counters :=
                      L.step_counters.map (fun c => wrap16 (c + 1)) },
            q)))

/-- `BatchedEnv.reset` (lines 124-152).  The masked branch first counts the
flags and returns `None` (without touching any attribute) when none is set;
otherwise it zeroes the flagged counters, sends `reset` to the flagged
workers and stacks their fresh observations.  The mask-less branch resets
every worker and zeroes the whole counter array. -/
def reset (g : Gym σ α ω ρ ι) (ic : ι → ι) (sys : Sys σ) (mask : Option (List Bool)) :
    List (Nat × Cmd α) × PyOutcome (Sys σ × Option (List ω)) :=
  match mask with
  | some m =>
      if countTrue m = 0 then ([], .ok (sys, none))
      else
        match sys with
        | none => ([], .exn "TypeError: NoneType does not support item assignment")
        | some L =>
            if m.length = L.step_counters.length then
              let counters1 := maskZero L.step_counters m
              let sends := maskedSends α L.workers.length m
              let pairs := serveMasked g ic L.workers m
              (sends,
               (stackResetReplies (collectMasked pairs m)).map
                 (fun obsList =>
                   (some { L with
                            workers := pairs.map Prod.fst,
                            step_counters := counters1 },
                    some obsList)))
            else ([], .exn "IndexError: boolean index did not match indexed array")
  | none =>
      match sys with
      | none => ([], .exn "AttributeError: NoneType object has no attribute fill")
      | some L =>
          let counters1 := L.step_counters.map (fun _ => (0 : Int))
          let sends := (List.range L.workers.length).map
            (fun i => (i, (Cmd.reset : Cmd α)))
          let pairs := L.workers.map (fun w => applyCmd g ic w Cmd.reset)
          (sends,
           (stackResetReplies (collectAll (pairs.map Prod.snd))).map
             (fun obsList =>
               (some { L with
                        workers := pairs.map Prod.fst,
                        step_counters := counters1 },
                some obsList)))

/-- Sequential processing of the items of a non-empty `seed_map`
(line 199): each item indexes into the pipe tuple (an out-of-range id
raises before that send happens) and fires a `seed` command. -/
def seedWorkers (g : Gym σ α ω ρ ι) (ic : ι → ι) :
    List (WState σ) → List (Nat × Option Int) →
      List (Nat × Cmd α) × PyOutcome (List (WState σ))
  | ws, [] => ([], .ok ws)
  | ws, (id, s) :: rest =>
      if h : id < ws.length then
        let ws1 := ws.set id (applyCmd g ic (ws.get ⟨id, h⟩) (Cmd.seed s)).fst
        let r := seedWorkers g ic ws1 rest
        ((id, Cmd.seed s) :: r.1, r.2)
      else ([], .exn "IndexError: tuple index out of range")

/-- `BatchedEnv.seed` (lines 190-202).  The branch test is the Python
truthiness `if seed_map:`, so both an absent map and an empty map take the
broadcast branch that draws a fresh random seed (`fresh i` models the i-th
`np.random.randint(2**31)` draw) for every worker. -/
def seed (g : Gym σ α ω ρ ι) (ic : ι → ι) (sys : Sys σ)
    (seed_map : Option (List (Nat × Option Int))) (fresh : Nat → Int) :
    List (Nat × Cmd α) × PyOutcome (Sys σ × Unit) :=
  match seed_map with
  | some (kv :: kvs) =>
      match sys with
      | none => ([], .exn "TypeError: NoneType object is not subscriptable")
      | some L =>
          let r := seedWorkers g ic L.workers (kv :: kvs)
          match r.2 with
          | .ok ws1 => (r.1, .ok (some { L with workers := ws1 }, ()))
          | .exn e => (r.1, .exn e)
          | .hang => (r.1, .hang)
  | _ =>
      match sys with
      | none => ([], .exn "TypeError: NoneType object is not iterable")
      | some L =>
          let sends := (List.range L.workers.length).map
            (fun i => (i, (Cmd.seed (some (fresh i)) : Cmd α)))
          let ws1 := L.workers.enum.map
            (fun p => (applyCmd g ic p.2 (Cmd.seed (some (fresh p.1)))).fst)
          (sends, .ok (some { L with workers := ws1 }, ()))

/-- Sequential fire-and-forget delivery of `render` to a list of worker
indices (all already bounds-checked, since the pipe list comprehension of
line 182 is evaluated before any send). -/
def renderIds (g : Gym σ α ω ρ ι) (ic : ι → ι) :
    List (WState σ) → List Nat → List (WState σ)
  | ws, [] => ws
  | ws, i :: rest =>
      renderIds g ic
        (ws.set i (applyCmd g ic (ws.getD i .down) (Cmd.render : Cmd α)).fst) rest

/-- `BatchedEnv.render` (lines 174-188).  `if env_ids:` is Python
truthiness again: a non-empty list selects that subset (building the pipe
list first, so a bad index raises before any send), `None` selects every
worker, and any other value, in particular the empty list, raises
`ValueError` without touching the pool. -/
def render (g : Gym σ α ω ρ ι) (ic : ι → ι) (sys : Sys σ)
    (env_ids : Option (List Nat)) :
    List (Nat × Cmd α) × PyOutcome (Sys σ × Unit) :=
  match env_ids with
  | some [] => ([], .exn "ValueError: invalid argument for env_ids!")
  | some (i :: rest) =>
      match sys with
      | none => ([], .exn "TypeError: NoneType object is not subscriptable")
      | some L =>
          if (i :: rest).all (fun j => j < L.workers.length) then
            ((i :: rest).map (fun j => (j, (Cmd.render : Cmd α))),
             .ok (some { L with workers := renderIds g ic L.workers (i :: rest) }, ()))
          else ([], .exn "IndexError: tuple index out of range")
  | none =>
      match sys with
      | none => ([], .exn "TypeError: NoneType object is not iterable")
      | some L =>
          ((List.range L.workers.length).map (fun j => (j, (Cmd.render : Cmd α))),
           .ok (some { L with
                        workers := L.workers.map
                          (fun w => (applyCmd g ic w Cmd.render).fst) }, ()))

/-- `BatchedEnv.monitor` (lines 166-172): broadcast, fire-and-forget. -/
def monitor (g : Gym σ α ω ρ ι) (ic : ι → ι) (sys : Sys σ)
    (cfg : Bool × Bool × String × Int) :
    List (Nat × Cmd α) × PyOutcome (Sys σ × Unit) :=
  match sys with
  | none => ([], .exn "TypeError: NoneType object is not iterable")
  | some L =>
      ((List.range L.workers.length).map (fun j => (j, Cmd.monitor cfg)),
       .ok (some { L with
                    workers := L.workers.map
                      (fun w => (applyCmd g ic w (Cmd.monitor cfg)).fst) }, ()))

/-- `BatchedEnv.close` (lines 154-164): send `close` to every worker, join
them all (a worker serving `close` always exits, and an already-dead worker
is already joined, so the join always returns), then assign `None` to every
attribute. -/
def close (_g : Gym σ α ω ρ ι) (_ic : ι → ι) (sys : Sys σ) :
    List (Nat × Cmd α) × PyOutcome (Sys σ) :=
  match sys with
  | none => ([], .exn "TypeError: NoneType object is not iterable")
  | some L =>
      ((List.range L.workers.length).map (fun j => (j, (Cmd.close : Cmd α))),
       .ok none)

/-- `BatchedEnv.__init__` (lines 80-109): start one worker per factory
(`env = env_fn_wrapper.obj(); env.seed(seed)`, lines 29-30, with the i-th
random spawn seed `seeds i`), fetch the spaces from worker 0 only, and
create the all-zero int16 counter array.  A pool of zero factories raises
at `self._p_to_workers[0]`; a worker whose startup raised never replies to
`get_spaces`, so construction blocks forever. -/
def init (g : Gym σ α ω ρ ι) (ic : ι → ι) (env_fns : List σ) (seeds : Nat → Int) :
    PyOutcome (Sys σ) :=
  let ws := env_fns.enum.map (fun p =>
    match g.seed p.2 (some (seeds p.1)) with
    | .ok s1 => WState.alive s1
    | .error _ => WState.down)
  match ws with
  | [] => .exn "IndexError: tuple index out of range"
  | w0 :: rest =>
      match w0 with
      | .down => .hang
      | .alive s0 =>
          match serveCmd g ic s0 (Cmd.get_spaces : Cmd α) with
          | .ok (some (s1, some (.spacesR a o))) =>
              .ok (some { workers := WState.alive s1 :: rest,
                          step_counters := List.replicate env_fns.length (0 : Int),
                          action_space := a, observation_space := o,
                          num_envs := env_fns.length })
          | _ => .hang

end BatchedEnv

/-- The step counters of a coordinator state, the read-only
`step_counters` property (lines 216-219). -/
def sysCounters : Sys σ → Option (List Int)
  | none => none
  | some L => some L.step_counters

/-- A sequence of public mutating calls on a `BatchedEnv`, as quantified
over by the counter invariant: `step` and (masked or full) `reset`. -/
inductive PoolOp (α : Type) where
  | stepOp (actions : List α)
  | resetOp (mask : Option (List Bool))
  deriving DecidableEq

/-- Execute one public call, keeping only the resulting coordinator state. -/
def applyPoolOp (g : Gym σ α ω ρ ι) (ic : ι → ι) (sys : Sys σ) :
    PoolOp α → PyOutcome (Sys σ)
  | .stepOp as =>
      match (BatchedEnv.step g ic sys as).2 with
      | .ok q => .ok q.1
      | .exn e => .exn e
      | .hang => .hang
  | .resetOp m =>
      match (BatchedEnv.reset g ic sys m).2 with
      | .ok q => .ok q.1
      | .exn e => .exn e
      | .hang => .hang

/-- Execute a sequence of public calls; an exception or a hang aborts the
sequence. -/
def runOps (g : Gym σ α ω ρ ι) (ic : ι → ι) :
    Sys σ → List (PoolOp α) → PyOutcome (Sys σ)
  | sys, [] => .ok sys
  | sys, op :: t =>
      match applyPoolOp g ic sys op with
      | .ok s2 => runOps g ic s2 t
      | .exn e => .exn e
      | .hang => .hang

/-- Specification-side counting: the number of `step` calls issued since the
last reset of worker `i`, starting from the count `acc`. -/
def sinceResetAux (i : Nat) (acc : Nat) : List (PoolOp α) → Nat
  | [] => acc
  | .stepOp _ :: t => sinceResetAux i (acc + 1) t
  | .resetOp none :: t => sinceResetAux i 0 t
  | .resetOp (some m) :: t =>
      sinceResetAux i (if m.getD i false then 0 else acc) t

/-- The number of `step` calls issued to worker `i` since worker `i` was
last reset (or since construction, if it never was). -/
def stepsSinceLastReset (i : Nat) (ops : List (PoolOp α)) : Nat :=
  sinceResetAux i 0 ops

/-- The one-operation transition of the specification-side step count of
worker `i` since its last reset. -/
def opAcc (op : PoolOp α) (i : Nat) (acc : Nat) : Nat :=
  match op with
  | .stepOp _ => acc + 1
  | .resetOp none => 0
  | .resetOp (some m) => if m.getD i false then 0 else acc


end RLHalite

/-!
A heap model for the `info` payload, precise enough to talk about aliasing:
Python dicts are mutable objects identified by their address, and a value is
either an (immutable) primitive or a reference to such an object.  This is
the model on which `info.copy()` (line 35 of the source) is embedded.
-/

namespace Py

/-- A Python value as stored in a dict: an immutable primitive, or a
reference to a mutable heap object. -/
inductive PyVal where
  | prim (n : Int)
  | ref (a : Nat)
  deriving DecidableEq

/-- The entries of one dict object. -/
abbrev PyObj := List (String × PyVal)

/-- A heap of dict objects; the address of an object is its index. -/
structure Heap where
  objs : List PyObj
  deriving DecidableEq

def Heap.get (h : Heap) (a : Nat) : PyObj := h.objs.getD a []

/-- `info.copy()`: allocate one fresh dict object whose entries are the very
same entries as the original (values that are references keep referring to
the same heap objects).  Returns the extended heap and the fresh address. -/
def dictCopy (h : Heap) (a : Nat) : Heap × Nat :=
  (⟨h.objs ++ [h.get a]⟩, h.objs.length)

/-- The addresses referenced directly from the entries of a dict object. -/
def refsOf (o : PyObj) : List Nat :=
  o.filterMap (fun p => match p.2 with | .ref b => some b | .prim _ => none)

/-- Fuelled reflexive-transitive closure of the reference relation. -/
def reachSet (h : Heap) : Nat → List Nat → List Nat
  | 0, acc => acc
  | fuel + 1, acc =>
      let frontier :=
        ((acc.map (fun a => refsOf (h.get a))).flatten).filter
          (fun b => ¬ acc.contains b)
      match frontier with
      | [] => acc
      | _ => reachSet h fuel (acc ++ frontier.dedup)

/-- All heap objects reachable from address `a`: the mutable state of the
value rooted at `a`. -/
def reachable (h : Heap) (a : Nat) : List Nat := reachSet h h.objs.length [a]

/-- Two roots share mutable state when some heap object is reachable from
both. -/
def sharesState (h : Heap) (a b : Nat) : Bool :=
  (reachable h a).any (fun x => (reachable h b).contains x)

/-- A concrete simulation info payload: the dict at address 0 holds a nested
mutable dict at address 1 (for example episode statistics the simulation
keeps updating in place). -/
def nestedInfoHeap : Heap := ⟨[[("inner", PyVal.ref 1)], [("x", PyVal.prim 7)]]⟩

end Py

namespace RLHalite

/-- A trivial deterministic simulation used to build concrete executions:
one state, one action, never done, no method ever raises. -/
def trivGym : Gym Unit Unit Unit Unit Unit where
  step := fun _ _ => .ok ((), (), (), false, ())
  reset := fun _ => .ok ((), ())
  seed := fun s _ => .ok s
  render := fun s => .ok s
  monitor := fun s _ => .ok s
  action_space := "sp"
  observation_space := "sp"

/-- The live coordinator state of a one-worker `trivGym` pool whose single
step counter holds `c`. -/
def trivLive (c : Int) : Live Unit :=
  { workers := [WState.alive ()], step_counters := [c],
    action_space := "sp", observation_space := "sp", num_envs := 1 }

/-- The live coordinator state of a freshly constructed two-worker
`trivGym` pool. -/
def trivLive2 : Live Unit :=
  { workers := [WState.alive (), WState.alive ()], step_counters := [0, 0],
    action_space := "sp", observation_space := "sp", num_envs := 2 }

/-- The deterministic counter simulation of the specification test
scenario: the state is the episode step count, the observation is the new
count, and an episode is done at count 3; `reset` returns to count 0 and
observes 0. -/
def counterGym : Gym Nat Unit Nat Int Unit where
  step := fun n _ => .ok (n + 1, n + 1, 0, n + 1 = 3, ())
  reset := fun _ => .ok (0, 0)
  seed := fun s _ => .ok s
  render := fun s => .ok s
  monitor := fun s _ => .ok s
  action_space := "Discrete"
  observation_space := "Box"

/-- A simulation whose `step` raises, used to witness the worker failure
semantics. -/
def faultyGym : Gym Unit Unit Unit Unit Unit where
  step := fun _ _ => .error "boom"
  reset := fun _ => .ok ((), ())
  seed := fun s _ => .ok s
  render := fun s => .ok s
  monitor := fun s _ => .ok s
  action_space := "sp"
  observation_space := "sp"

end RLHalite

/-!
Theorems for the individual claims, in claim order, with shared helper
lemmas preceding them.
-/

namespace RLHalite

variable {σ α ω ρ ι : Type}

/-- Claim C1: for every step command whose execution yields `done == true`,
the observation in the `StepResult` the worker sends back is the fresh
observation produced by the internal auto-reset (`ob = env.reset()`,
line 37), not the terminal observation of the step itself; when
`done == false` the stepped observation is returned unchanged. -/
theorem step_done_returns_post_reset_obs
    (g : Gym σ α ω ρ ι) (ic : ι → ι) (s : σ) (a : α)
    (s1 : σ) (ob : ω) (r : ρ) (d : Bool) (info : ι)
    (h : g.step s a = .ok (s1, ob, r, d, info)) :
    (d = true → ∀ s2 ob2, g.reset s1 = .ok (s2, ob2) →
        serveCmd g ic s (Cmd.step a) =
          .ok (some (s2, some (Reply.stepR ob2 r true (ic info))))) ∧
    (d = false →
        serveCmd g ic s (Cmd.step a) =
          .ok (some (s1, some (Reply.stepR ob r false (ic info))))) := by
  constructor
  · intro hd s2 ob2 hr
    subst hd
    simp [serveCmd, h, hr, Bind.bind, Except.bind, Functor.map, Except.map,
      Pure.pure, Except.pure]
  · intro hd
    subst hd
    simp [serveCmd, h, Bind.bind, Except.bind, Functor.map, Except.map,
      Pure.pure, Except.pure]

/-- Witness for C1, the counter scenario of the specification: at episode
step count 2 one more step reaches 3, reports `done`, and the reply carries
the post-reset observation 0 instead of the terminal observation 3. -/
theorem step_done_returns_post_reset_obs_w :
    counterGym.step 2 () = .ok (3, 3, 0, true, ()) ∧
    counterGym.reset 3 = .ok (0, 0) ∧
    serveCmd counterGym id 2 (Cmd.step ()) =
      .ok (some (0, some (Reply.stepR 0 0 true ()))) :=
  ⟨rfl, rfl,
   (step_done_returns_post_reset_obs counterGym id 2 () 3 3 0 true () rfl).1
     rfl 0 0 rfl⟩

/-- Claim C8: if executing a received command raises, or the command tag is
unrecognized (which raises `NotImplementedError`, line 55), the worker
sends no reply for that command, closes its pipe and exits abnormally
(lines 56-59), and produces no further replies whatever commands follow. -/
theorem worker_fault_is_fatal
    (g : Gym σ α ω ρ ι) (ic : ι → ι) (s : σ) (c : Cmd α) :
    (∀ e, serveCmd g ic s c = .error e →
        workerHandle g ic s c = .crashed ∧
        ∀ rest, workerRun g ic s (c :: rest) = ([], .crashed)) ∧
    (∀ tag, serveCmd g ic s (Cmd.other tag) = .error "NotImplementedError") := by
  constructor
  · intro e he
    have hh : workerHandle g ic s c = .crashed := by
      unfold workerHandle
      rw [he]
    exact ⟨hh, fun rest => by simp [workerRun, hh]⟩
  · intro tag
    rfl

/-- Witness for C8: a simulation whose `step` raises, and an unrecognized
command tag; in both cases the worker replies to nothing and crashes. -/
theorem worker_fault_is_fatal_w :
    serveCmd faultyGym id () (Cmd.step ()) = .error "boom" ∧
    workerHandle faultyGym id () (Cmd.step ()) = .crashed ∧
    workerRun faultyGym id () [Cmd.step (), Cmd.reset] = ([], .crashed) ∧
    serveCmd faultyGym id () (Cmd.other "bogus") = .error "NotImplementedError" :=
  ⟨rfl,
   ((worker_fault_is_fatal faultyGym id () (Cmd.step ())).1 "boom" rfl).1,
   ((worker_fault_is_fatal faultyGym id () (Cmd.step ())).1 "boom" rfl).2 [Cmd.reset],
   (worker_fault_is_fatal faultyGym id () (Cmd.step ())).2 "bogus"⟩

/-- Claim C5: `reset(mask)` with a mask flagging no worker returns the
empty result `None` immediately (lines 135-137): no command is sent to any
worker, no error is raised, and the coordinator state is untouched. -/
theorem reset_allfalse_no_traffic
    (g : Gym σ α ω ρ ι) (ic : ι → ι) (sys : Sys σ) (m : List Bool)
    (h : countTrue m = 0) :
    BatchedEnv.reset g ic sys (some m) = ([], .ok (sys, none)) := by
  unfold BatchedEnv.reset
  simp [h]

/-- Witness for C5 on a concrete two-worker pool and all-false mask. -/
theorem reset_allfalse_no_traffic_w :
    countTrue [false, false] = 0 ∧
    BatchedEnv.reset trivGym id (some trivLive2) (some [false, false]) =
      ([], .ok (some trivLive2, none)) :=
  ⟨rfl, reset_allfalse_no_traffic trivGym id (some trivLive2) [false, false] rfl⟩

end RLHalite

namespace RLHalite

variable {σ α ω ρ ι : Type}

lemma wrap16_eq_self {n : Int} (h1 : -32768 ≤ n) (h2 : n ≤ 32767) : wrap16 n = n := by
  unfold wrap16
  omega

lemma wrap16_wrap16_add_one (n : Int) : wrap16 (wrap16 n + 1) = wrap16 (n + 1) := by
  unfold wrap16
  omega

lemma wrap16_natCast_of_le {k : Nat} (h : k ≤ 32767) : wrap16 k = (k : Int) := by
  unfold wrap16
  omega

lemma getD_map_int (f : Int → Int) :
    ∀ (l : List Int) (i : Nat), i < l.length → (l.map f).getD i 0 = f (l.getD i 0) := by
  intro l
  induction l with
  | nil => intro i h; simp at h
  | cons a t ih =>
      intro i h
      cases i with
      | zero => rfl
      | succ j =>
          simp only [List.map_cons, List.getD_cons_succ]
          exact ih j (by simpa using h)

lemma getD_maskZero :
    ∀ (cs : List Int) (m : List Bool) (i : Nat), i < cs.length →
      m.length = cs.length →
      (maskZero cs m).getD i 0 = if m.getD i false then 0 else cs.getD i 0 := by
  intro cs
  induction cs with
  | nil => intro m i h; simp at h
  | cons c t ih =>
      intro m i hi hm
      match m with
      | [] => simp at hm
      | b :: bs =>
          cases i with
          | zero => cases b <;> rfl
          | succ j =>
              simp only [maskZero, List.zipWith_cons_cons, List.getD_cons_succ]
              exact ih bs j (by simpa using hi) (by simpa using hm)

lemma countTrue_zero_getD {m : List Bool} (h : countTrue m = 0) (i : Nat) :
    m.getD i false = false := by
  unfold countTrue at h
  induction m generalizing i with
  | nil => cases i <;> rfl
  | cons b t ih =>
      rw [List.count_cons] at h
      cases b with
      | true => simp at h
      | false =>
          cases i with
          | zero => rfl
          | succ j =>
              simp only [List.getD_cons_succ]
              exact ih (by omega) j

/-- Stepping the one-worker trivial pool advances the int16 counter by a
wrapped increment and changes nothing else. -/
lemma triv_step_eq (c : Int) :
    applyPoolOp trivGym id (some (trivLive c)) (.stepOp [()]) =
      .ok (some (trivLive (wrap16 (c + 1)))) := rfl

/-- Iterating `step` on the one-worker trivial pool accumulates wrapped
increments. -/
lemma triv_runSteps (n : Nat) : ∀ k : Int,
    runOps trivGym id (some (trivLive (wrap16 k)))
        (List.replicate n (PoolOp.stepOp [()])) =
      .ok (some (trivLive (wrap16 (k + n)))) := by
  induction n with
  | zero =>
      intro k
      simp [runOps]
  | succ m ih =>
      intro k
      rw [List.replicate_succ]
      simp only [runOps, triv_step_eq, wrap16_wrap16_add_one]
      have e : (k + 1) + (m : Int) = k + ((m + 1 : Nat) : Int) := by
        push_cast
        ring
      have h := ih (k + 1)
      rw [e] at h
      exact h

/-- Inversion of a completed `step` call: the new counter array is the old
one with every entry incremented in int16 arithmetic (line 121 applied to
the `np.int16` array of line 109). -/
lemma step_ok_counters
    (g : Gym σ α ω ρ ι) (ic : ι → ι) (L : Live σ) (as : List α)
    {out : PyOutcome (Sys σ × (List ω × List ρ × List Bool × List ι))}
    {sys2 ret} (hout : out = .ok (sys2, ret))
    (h : (BatchedEnv.step g ic (some L) as).2 = out) :
    sys2 = some { L with
        workers := (serveZip g ic L.workers (as.map Cmd.step)).map Prod.fst,
        step_counters := L.step_counters.map (fun c => wrap16 (c + 1)) } := by
  subst hout
  unfold BatchedEnv.step at h
  simp only [PyOutcome.map] at h
  split at h
  · simp only [PyOutcome.ok.injEq, Prod.mk.injEq] at h
    exact h.1.symm
  · simp at h
  · simp at h

end RLHalite

namespace RLHalite

variable {σ α ω ρ ι : Type}

/-- Claim C2 (amended): after a completed `step` call, every entry of
`step_counters` equals `wrap16` of its previous value plus one — the
`+= 1` of line 121 applied to the `np.int16` array of line 109 —
regardless of whether individual workers auto-reset internally; this is
exactly the previous value plus one whenever that value is at most 32766,
while an entry holding 32767 wraps to -32768. -/
theorem step_increments_counters_int16
    (g : Gym σ α ω ρ ι) (ic : ι → ι) (L : Live σ) (as : List α)
    (tr : List (Nat × Cmd α)) (sys2 : Sys σ)
    (ret : List ω × List ρ × List Bool × List ι)
    (h : BatchedEnv.step g ic (some L) as = (tr, .ok (sys2, ret))) :
    sysCounters sys2 = some (L.step_counters.map (fun c => wrap16 (c + 1))) ∧
    ∀ c : Int, -32768 ≤ c → c ≤ 32766 → wrap16 (c + 1) = c + 1 := by
  have h2 : (BatchedEnv.step g ic (some L) as).2 = .ok (sys2, ret) := by rw [h]
  have hs := step_ok_counters g ic L as rfl h2
  refine ⟨?_, fun c hc1 hc2 => wrap16_eq_self (by omega) (by omega)⟩
  rw [hs]
  rfl

/-- Witness for the amended C2 on a concrete one-worker pool. -/
theorem step_increments_counters_int16_w :
    BatchedEnv.step trivGym id (some (trivLive 0)) [()] =
      ([(0, Cmd.step ())], .ok (some (trivLive 1), ([()], [()], [false], [()]))) ∧
    sysCounters (some (trivLive 1)) =
      some ((trivLive 0).step_counters.map (fun c => wrap16 (c + 1))) :=
  ⟨rfl, (step_increments_counters_int16 trivGym id (trivLive 0) [()]
      [(0, Cmd.step ())] (some (trivLive 1)) ([()], [()], [false], [()]) rfl).1⟩

/-- Counterexample to claim C2 as stated: a pool whose (reachable: it is
produced by construction followed by 32767 completed `step` calls) counter
entry holds 32767; one more completed `step` call leaves the entry at
-32768, which is not its previous value plus one, because the `np.int16`
array wraps. -/
theorem step_counter_wrap_cex :
    BatchedEnv.init trivGym id [()] (fun _ => 0) = .ok (some (trivLive 0)) ∧
    runOps trivGym id (some (trivLive 0))
        (List.replicate 32767 (PoolOp.stepOp [()])) =
      .ok (some (trivLive 32767)) ∧
    BatchedEnv.step trivGym id (some (trivLive 32767)) [()] =
      ([(0, Cmd.step ())],
       .ok (some (trivLive (-32768)), ([()], [()], [false], [()]))) ∧
    (-32768 : Int) ≠ 32767 + 1 := by
  refine ⟨by decide, ?_, rfl, by decide⟩
  have h := triv_runSteps 32767 0
  have e0 : wrap16 0 = 0 := by decide
  have e1 : wrap16 ((0 : Int) + ((32767 : Nat) : Int)) = 32767 := by decide
  rw [e0, e1] at h
  exact h

end RLHalite

namespace RLHalite

variable {σ α ω ρ ι : Type}

lemma wrap16_zero : wrap16 0 = 0 := by decide

lemma sinceResetAux_cons (i acc : Nat) (op : PoolOp α) (t : List (PoolOp α)) :
    sinceResetAux i acc (op :: t) = sinceResetAux i (opAcc op i acc) t := by
  cases op with
  | stepOp as => rfl
  | resetOp m => cases m <;> rfl

lemma PyOutcome_map_eq_ok {β γ : Type} (f : β → γ) (o : PyOutcome β) (v : γ) :
    o.map f = .ok v ↔ ∃ b, o = .ok b ∧ v = f b := by
  cases o <;> simp [PyOutcome.map, eq_comm]

/-- Equation for `reset` without a mask on a live pool. -/
lemma reset_none_eq (g : Gym σ α ω ρ ι) (ic : ι → ι) (L : Live σ) :
    BatchedEnv.reset g ic (some L) none =
      ((List.range L.workers.length).map (fun i => (i, (Cmd.reset : Cmd α))),
       (stackResetReplies
          (collectAll ((L.workers.map (fun w => applyCmd g ic w Cmd.reset)).map
            Prod.snd))).map
         (fun obsList =>
           (some { L with
                    workers :=
                      (L.workers.map (fun w => applyCmd g ic w Cmd.reset)).map
                        Prod.fst,
                    step_counters := L.step_counters.map (fun _ => (0 : Int)) },
            some obsList))) := rfl

/-- Equation for `reset` with a mask flagging no worker (lines 135-137). -/
lemma reset_maskz_eq (g : Gym σ α ω ρ ι) (ic : ι → ι) (sys : Sys σ)
    (m : List Bool) (hzero : countTrue m = 0) :
    BatchedEnv.reset g ic sys (some m) = ([], .ok (sys, none)) := by
  unfold BatchedEnv.reset
  simp [hzero]

/-- Equation for `reset` with a mask flagging at least one worker, of the
right length. -/
lemma reset_maskpos_eq (g : Gym σ α ω ρ ι) (ic : ι → ι) (L : Live σ)
    (m : List Bool) (hnz : ¬ countTrue m = 0)
    (hlen : m.length = L.step_counters.length) :
    BatchedEnv.reset g ic (some L) (some m) =
      (maskedSends α L.workers.length m,
       (stackResetReplies (collectMasked (serveMasked g ic L.workers m) m)).map
         (fun obsList =>
           (some { L with
                    workers := (serveMasked g ic L.workers m).map Prod.fst,
                    step_counters := maskZero L.step_counters m },
            some obsList))) := by
  unfold BatchedEnv.reset
  simp only [if_neg hnz, if_pos hlen]

/-- Equation for `reset` with a wrong-length non-trivial mask. -/
lemma reset_masklen_eq (g : Gym σ α ω ρ ι) (ic : ι → ι) (L : Live σ)
    (m : List Bool) (hnz : ¬ countTrue m = 0)
    (hlen : ¬ m.length = L.step_counters.length) :
    BatchedEnv.reset g ic (some L) (some m) =
      (([] : List (Nat × Cmd α)),
       .exn "IndexError: boolean index did not match indexed array") := by
  unfold BatchedEnv.reset
  simp only [if_neg hnz, if_neg hlen]

/-- Inversion of a completed `reset` call: flagged (or, without a mask,
all) counters are zeroed, the rest are untouched. -/
lemma reset_ok_counters
    (g : Gym σ α ω ρ ι) (ic : ι → ι) (L : Live σ) (mask : Option (List Bool))
    {sys2 : Sys σ} {ret : Option (List ω)}
    (h : (BatchedEnv.reset g ic (some L) mask).2 = .ok (sys2, ret)) :
    ∃ L2, sys2 = some L2 ∧
      L2.step_counters.length = L.step_counters.length ∧
      ∀ (i : Nat) (acc : Nat), i < L.step_counters.length →
        L.step_counters.getD i 0 = wrap16 acc →
        L2.step_counters.getD i 0 =
          wrap16 (opAcc (PoolOp.resetOp mask : PoolOp α) i acc) := by
  cases mask with
  | none =>
      rw [reset_none_eq] at h
      simp only [PyOutcome_map_eq_ok] at h
      obtain ⟨obsList, hC, hv⟩ := h
      simp only [Prod.mk.injEq] at hv
      refine ⟨_, hv.1, by simp, fun i acc hi hacc => ?_⟩
      simp only [opAcc]
      rw [getD_map_int (fun _ => (0 : Int)) L.step_counters i hi]
      simp [wrap16_zero]
  | some m =>
      by_cases hzero : countTrue m = 0
      · rw [reset_maskz_eq g ic (some L) m hzero] at h
        simp only [PyOutcome.ok.injEq, Prod.mk.injEq] at h
        refine ⟨L, h.1.symm, rfl, fun i acc hi hacc => ?_⟩
        simp only [opAcc, countTrue_zero_getD hzero i, if_false]
        exact hacc
      · by_cases hlen : m.length = L.step_counters.length
        · rw [reset_maskpos_eq g ic L m hzero hlen] at h
          simp only [PyOutcome_map_eq_ok] at h
          obtain ⟨obsList, hC, hv⟩ := h
          simp only [Prod.mk.injEq] at hv
          refine ⟨_, hv.1, ?_, fun i acc hi hacc => ?_⟩
          · simp only [maskZero, List.length_zipWith]
            omega
          · simp only [opAcc]
            rw [getD_maskZero L.step_counters m i hi hlen]
            cases hb : m.getD i false with
            | true => simp [wrap16_zero]
            | false => simpa using hacc
        · rw [reset_masklen_eq g ic L m hzero hlen] at h
          simp at h

/-- Inversion of one completed public call, at the level of the counter
array. -/
lemma applyPoolOp_ok_counters
    (g : Gym σ α ω ρ ι) (ic : ι → ι) (L : Live σ) (op : PoolOp α) {sys2 : Sys σ}
    (h : applyPoolOp g ic (some L) op = .ok sys2) :
    ∃ L2, sys2 = some L2 ∧
      L2.step_counters.length = L.step_counters.length ∧
      ∀ (i : Nat) (acc : Nat), i < L.step_counters.length →
        L.step_counters.getD i 0 = wrap16 acc →
        L2.step_counters.getD i 0 = wrap16 (opAcc op i acc) := by
  cases op with
  | stepOp as =>
      cases hstep : (BatchedEnv.step g ic (some L) as).2 with
      | ok q =>
          obtain ⟨s2, ret⟩ := q
          simp only [applyPoolOp, hstep] at h
          injection h with h'
          have hs := step_ok_counters g ic L as rfl hstep
          refine ⟨_, by rw [← h', hs], by simp, fun i acc hi hacc => ?_⟩
          simp only [opAcc]
          rw [getD_map_int (fun c => wrap16 (c + 1)) L.step_counters i hi, hacc,
            wrap16_wrap16_add_one]
          push_cast
          ring_nf
      | exn e => simp [applyPoolOp, hstep] at h
      | hang => simp [applyPoolOp, hstep] at h
  | resetOp mask =>
      cases hreset : (BatchedEnv.reset g ic (some L) mask).2 with
      | ok q =>
          obtain ⟨s2, ret⟩ := q
          simp only [applyPoolOp, hreset] at h
          injection h with h'
          obtain ⟨L2, hq, hlen, hctr⟩ := reset_ok_counters g ic L mask hreset
          exact ⟨L2, by rw [← h', hq], hlen, hctr⟩
      | exn e => simp [applyPoolOp, hreset] at h
      | hang => simp [applyPoolOp, hreset] at h

/-- Counter evolution along any completed sequence of public calls. -/
lemma runOps_counters (g : Gym σ α ω ρ ι) (ic : ι → ι) :
    ∀ (ops : List (PoolOp α)) (L : Live σ) {sys2 : Sys σ},
      runOps g ic (some L) ops = .ok sys2 →
      ∃ L2, sys2 = some L2 ∧
        L2.step_counters.length = L.step_counters.length ∧
        ∀ (i : Nat) (acc : Nat), i < L.step_counters.length →
          L.step_counters.getD i 0 = wrap16 acc →
          L2.step_counters.getD i 0 = wrap16 (sinceResetAux i acc ops) := by
  intro ops
  induction ops with
  | nil =>
      intro L sys2 h
      simp only [runOps] at h
      injection h with h'
      exact ⟨L, h'.symm, rfl, fun i acc _ hacc => hacc⟩
  | cons op t ih =>
      intro L sys2 h
      cases heq : applyPoolOp g ic (some L) op with
      | ok s2 =>
          simp only [runOps, heq] at h
          obtain ⟨L1, rfl, hlen1, hctr1⟩ := applyPoolOp_ok_counters g ic L op heq
          obtain ⟨L2, hsys2, hlen2, hctr2⟩ := ih L1 h
          refine ⟨L2, hsys2, hlen2.trans hlen1, fun i acc hi hacc => ?_⟩
          rw [sinceResetAux_cons]
          exact hctr2 i (opAcc op i acc) (by rw [hlen1]; exact hi)
            (hctr1 i acc hi hacc)
      | exn e => simp [runOps, heq] at h
      | hang => simp [runOps, heq] at h

lemma getD_replicate_zero (n i : Nat) :
    (List.replicate n (0 : Int)).getD i 0 = 0 := by
  induction n generalizing i with
  | zero => cases i <;> rfl
  | succ m ihm =>
      cases i with
      | zero => rfl
      | succ j =>
          rw [List.replicate_succ]
          simp only [List.getD_cons_succ]
          exact ihm j

/-- Inversion of a successful construction: the counters are the all-zero
array `np.zeros(num_envs, dtype=np.int16)` of line 109. -/
lemma init_ok_state
    (g : Gym σ α ω ρ ι) (ic : ι → ι) (env_fns : List σ) (seeds : Nat → Int)
    {sys0 : Sys σ}
    (h : BatchedEnv.init g ic env_fns seeds = .ok sys0) :
    ∃ L0, sys0 = some L0 ∧
      L0.step_counters = List.replicate env_fns.length (0 : Int) := by
  unfold BatchedEnv.init at h
  simp only at h
  split at h
  · simp at h
  · split at h
    · simp at h
    · split at h
      · injection h with h'
        exact ⟨_, h'.symm, rfl⟩
      · simp at h

end RLHalite

namespace RLHalite

variable {σ α ω ρ ι : Type}

/-- Claim C3 (amended): along any completed sequence of step and reset
calls from construction, `step_counters[i]` is zeroed whenever worker `i`
is reset, and at all times equals `wrap16` of the number of step calls
issued to worker `i` since worker `i` was last reset; in particular it
equals that number exactly (and is monotone between resets) as long as the
number stays at most 32767, while the int16 array wraps beyond that. -/
theorem counters_track_steps_int16
    (g : Gym σ α ω ρ ι) (ic : ι → ι) (env_fns : List σ) (seeds : Nat → Int)
    (sys0 : Sys σ) (ops : List (PoolOp α)) (L1 : Live σ) (i : Nat)
    (h0 : BatchedEnv.init g ic env_fns seeds = .ok sys0)
    (h1 : runOps g ic sys0 ops = .ok (some L1))
    (hi : i < L1.step_counters.length) :
    L1.step_counters.getD i 0 = wrap16 (stepsSinceLastReset i ops) ∧
    (stepsSinceLastReset i ops ≤ 32767 →
      L1.step_counters.getD i 0 = (stepsSinceLastReset i ops : Int)) := by
  obtain ⟨L0, rfl, hc0⟩ := init_ok_state g ic env_fns seeds h0
  obtain ⟨L2, hL2, hlen, hctr⟩ := runOps_counters g ic ops L0 h1
  injection hL2 with hL2'
  subst hL2'
  have hi0 : i < L0.step_counters.length := by
    rw [← hlen]
    exact hi
  have hbase : L0.step_counters.getD i 0 = wrap16 ((0 : Nat) : Int) := by
    rw [hc0, getD_replicate_zero]
    simp [wrap16_zero]
  have hmain := hctr i 0 hi0 hbase
  unfold stepsSinceLastReset
  exact ⟨hmain, fun hle => by rw [hmain, wrap16_natCast_of_le hle]⟩

/-- Witness for the amended C3: a one-worker pool stepped, reset, and
stepped again; the counter equals the one step since the last reset. -/
theorem counters_track_steps_int16_w :
    BatchedEnv.init trivGym id [()] (fun _ => 0) = .ok (some (trivLive 0)) ∧
    runOps trivGym id (some (trivLive 0))
        [PoolOp.stepOp [()], PoolOp.resetOp none, PoolOp.stepOp [()]] =
      .ok (some (trivLive 1)) ∧
    (trivLive 1).step_counters.getD 0 0 =
      wrap16 (stepsSinceLastReset 0
        [PoolOp.stepOp (α := Unit) [()], PoolOp.resetOp none, PoolOp.stepOp [()]]) ∧
    (trivLive 1).step_counters.getD 0 0 =
      ((stepsSinceLastReset 0
        [PoolOp.stepOp (α := Unit) [()], PoolOp.resetOp none,
         PoolOp.stepOp [()]] : Nat) : Int) :=
  ⟨by decide, by decide,
   (counters_track_steps_int16 trivGym id [()] (fun _ => 0) (some (trivLive 0))
      [PoolOp.stepOp [()], PoolOp.resetOp none, PoolOp.stepOp [()]]
      (trivLive 1) 0 (by decide) (by decide) (by decide)).1,
   (counters_track_steps_int16 trivGym id [()] (fun _ => 0) (some (trivLive 0))
      [PoolOp.stepOp [()], PoolOp.resetOp none, PoolOp.stepOp [()]]
      (trivLive 1) 0 (by decide) (by decide) (by decide)).2 (by decide)⟩

lemma sinceResetAux_replicate_step (i : Nat) (as : List α) :
    ∀ (n acc : Nat),
      sinceResetAux i acc (List.replicate n (PoolOp.stepOp as)) = acc + n := by
  intro n
  induction n with
  | zero =>
      intro acc
      simp [sinceResetAux]
  | succ m ihm =>
      intro acc
      rw [List.replicate_succ]
      simp only [sinceResetAux]
      rw [ihm]
      omega

/-- Counterexample to claim C3 as stated: after construction and 32768
completed `step` calls with no reset of worker 0, the number of step calls
issued since the last reset is 32768, yet `step_counters[0]` holds -32768;
the counter is not that count, and it is smaller than its own previous
value 32767, so it is not monotone between resets either. -/
theorem counters_wrap_cex :
    BatchedEnv.init trivGym id [()] (fun _ => 0) = .ok (some (trivLive 0)) ∧
    runOps trivGym id (some (trivLive 0))
        (List.replicate 32767 (PoolOp.stepOp [()])) =
      .ok (some (trivLive 32767)) ∧
    runOps trivGym id (some (trivLive 0))
        (List.replicate 32768 (PoolOp.stepOp [()])) =
      .ok (some (trivLive (-32768))) ∧
    stepsSinceLastReset 0
        (List.replicate 32768 (PoolOp.stepOp (α := Unit) [()])) = 32768 ∧
    (trivLive (-32768)).step_counters.getD 0 0 ≠ ((32768 : Nat) : Int) ∧
    ((-32768 : Int) < 32767) := by
  have e0 : wrap16 0 = 0 := by decide
  refine ⟨by decide, ?_, ?_, ?_, by decide, by decide⟩
  · have h := triv_runSteps 32767 0
    have e1 : wrap16 ((0 : Int) + ((32767 : Nat) : Int)) = 32767 := by decide
    rw [e0, e1] at h
    exact h
  · have h := triv_runSteps 32768 0
    have e1 : wrap16 ((0 : Int) + ((32768 : Nat) : Int)) = -32768 := by decide
    rw [e0, e1] at h
    exact h
  · unfold stepsSinceLastReset
    rw [sinceResetAux_replicate_step]

end RLHalite

namespace RLHalite

variable {σ α ω ρ ι : Type}

lemma serveZip_take (g : Gym σ α ω ρ ι) (ic : ι → ι) :
    ∀ (ws : List (WState σ)) (cs : List (Cmd α)),
      serveZip g ic ws (cs.take ws.length) = serveZip g ic ws cs := by
  intro ws
  induction ws with
  | nil =>
      intro cs
      cases cs <;> rfl
  | cons w t ih =>
      intro cs
      cases cs with
      | nil => rfl
      | cons c cs' =>
          simp only [List.length_cons, List.take_succ_cons, serveZip]
          rw [ih cs']

lemma serveZip_short_has_none (g : Gym σ α ω ρ ι) (ic : ι → ι) :
    ∀ (ws : List (WState σ)) (cs : List (Cmd α)), cs.length < ws.length →
      ((serveZip g ic ws cs).map Prod.snd).all Option.isSome = false := by
  intro ws
  induction ws with
  | nil =>
      intro cs h
      simp at h
  | cons w t ih =>
      intro cs h
      cases cs with
      | nil => simp [serveZip]
      | cons c cs' =>
          simp only [serveZip, List.map_cons, List.all_cons]
          rw [ih cs' (by simpa using h)]
          simp

lemma step_take_eq (g : Gym σ α ω ρ ι) (ic : ι → ι) (L : Live σ) (as : List α) :
    BatchedEnv.step g ic (some L) (as.take L.workers.length) =
    BatchedEnv.step g ic (some L) as := by
  unfold BatchedEnv.step
  simp only []
  have hp : serveZip g ic L.workers ((as.take L.workers.length).map Cmd.step) =
      serveZip g ic L.workers (as.map Cmd.step) := by
    rw [List.map_take]
    exact serveZip_take g ic L.workers (as.map Cmd.step)
  rw [hp]
  have hs : (as.take L.workers.length).take
        (min L.workers.length (as.take L.workers.length).length) =
      as.take (min L.workers.length as.length) := by
    rw [List.length_take, List.take_take]
    congr 1
    omega
  rw [hs]

/-- Claim C4 (amended): `step` performs no argument-count validation.  With
fewer actions than workers it sends step commands to the first
`len(actions)` workers and then blocks forever on the reply barrier (no
error is raised); with more actions than workers the surplus actions are
silently dropped, the call behaving exactly as with the truncated prefix. -/
theorem step_no_length_validation
    (g : Gym σ α ω ρ ι) (ic : ι → ι) (L : Live σ) (as : List α) :
    (as.length < L.workers.length →
      (BatchedEnv.step g ic (some L) as).2 = .hang) ∧
    BatchedEnv.step g ic (some L) (as.take L.workers.length) =
      BatchedEnv.step g ic (some L) as := by
  refine ⟨fun hlt => ?_, step_take_eq g ic L as⟩
  have hn : collectAll
      ((serveZip g ic L.workers (as.map Cmd.step)).map Prod.snd) = none := by
    unfold collectAll
    rw [serveZip_short_has_none g ic L.workers (as.map Cmd.step)
      (by simpa using hlt)]
    rfl
  unfold BatchedEnv.step
  simp only [hn]
  rfl

/-- Witness for the amended C4: one action on a two-worker pool hangs; two
actions on a one-worker pool behave as their one-action prefix. -/
theorem step_no_length_validation_w :
    (BatchedEnv.step trivGym id (some trivLive2) [()]).2 = .hang ∧
    BatchedEnv.step trivGym id (some (trivLive 0))
        ([(), ()].take (trivLive 0).workers.length) =
      BatchedEnv.step trivGym id (some (trivLive 0)) [(), ()] :=
  ⟨(step_no_length_validation trivGym id trivLive2 [()]).1 (by decide),
   (step_no_length_validation trivGym id (trivLive 0) [(), ()]).2⟩

/-- Counterexample to claim C4 as stated: on a freshly constructed
two-worker pool, calling `step` with a single action does not fail fast
with an error: it sends a step command to worker 0 (so commands do reach
workers) and then blocks forever, never raising. -/
theorem step_length_mismatch_cex :
    BatchedEnv.step trivGym id (some trivLive2) [()] =
      ([(0, Cmd.step ())], .hang) ∧
    ([(0, Cmd.step ())] : List (Nat × Cmd Unit)) ≠ [] :=
  ⟨rfl, by decide⟩

end RLHalite

namespace RLHalite

variable {σ α ω ρ ι : Type}

lemma countTrue_replicate_true (n : Nat) :
    countTrue (List.replicate n true) = n := by
  simp [countTrue]

lemma maskZero_replicate_true :
    ∀ (cs : List Int) (n : Nat), cs.length = n →
      maskZero cs (List.replicate n true) = cs.map (fun _ => (0 : Int)) := by
  intro cs
  induction cs with
  | nil =>
      intro n h
      subst h
      rfl
  | cons c t ih =>
      intro n h
      subst h
      simp only [List.length_cons, List.replicate_succ, maskZero,
        List.zipWith_cons_cons, List.map_cons, if_true]
      rw [← maskZero]
      rw [ih t.length rfl]

lemma serveMasked_replicate_true (g : Gym σ α ω ρ ι) (ic : ι → ι) :
    ∀ (ws : List (WState σ)) (n : Nat), ws.length = n →
      serveMasked g ic ws (List.replicate n true) =
        ws.map (fun w => applyCmd g ic w Cmd.reset) := by
  intro ws
  induction ws with
  | nil =>
      intro n h
      subst h
      rfl
  | cons w t ih =>
      intro n h
      subst h
      simp only [List.length_cons, List.replicate_succ, serveMasked,
        List.map_cons, if_true]
      rw [ih t.length rfl]

lemma zip_replicate_true_filterMap (l : List Nat) :
    ((l.zip (List.replicate l.length true)).filterMap
      (fun p => if p.2 then some (p.1, (Cmd.reset : Cmd α)) else none)) =
      l.map (fun i => (i, (Cmd.reset : Cmd α))) := by
  induction l with
  | nil => rfl
  | cons i t ih =>
      simp only [List.length_cons, List.replicate_succ, List.zip_cons_cons,
        List.filterMap_cons, List.map_cons]
      rw [ih]
      rfl

lemma maskedSends_replicate_true (n : Nat) :
    maskedSends α n (List.replicate n true) =
      (List.range n).map (fun i => (i, (Cmd.reset : Cmd α))) := by
  unfold maskedSends
  have h := zip_replicate_true_filterMap (α := α) (List.range n)
  rw [List.length_range] at h
  exact h

lemma collectMasked_replicate_true :
    ∀ (ps : List (WState σ × Option (Reply ω ρ ι))) (n : Nat), ps.length = n →
      collectMasked ps (List.replicate n true) = collectAll (ps.map Prod.snd) := by
  intro ps
  induction ps with
  | nil =>
      intro n h
      subst h
      rfl
  | cons p t ih =>
      intro n h
      subst h
      simp only [List.length_cons, List.replicate_succ, collectMasked,
        List.map_cons, if_true]
      cases hp : p.2 with
      | none => simp [collectAll, hp]
      | some r =>
          rw [ih t.length rfl]
          by_cases hall : ((t.map Prod.snd).all Option.isSome : Prop)
          · simp [collectAll, hp, hall, List.reduceOption]
          · simp [collectAll, hp, hall]

/-- Claim C6: resetting with an all-true mask of length `num_envs` is the
very same operation as `reset(None)`: identical reset commands to every
worker, identical zeroing of every step counter, and the identical stacked
list of fresh observations (identical hang or failure behavior included). -/
theorem reset_alltrue_eq_reset_none
    (g : Gym σ α ω ρ ι) (ic : ι → ι) (L : Live σ) (n : Nat)
    (hw : L.workers.length = n) (hc : L.step_counters.length = n)
    (hn : 1 ≤ n) :
    BatchedEnv.reset g ic (some L) (some (List.replicate n true)) =
    BatchedEnv.reset g ic (some L) none := by
  subst hw
  have hnz : ¬ countTrue (List.replicate L.workers.length true) = 0 := by
    rw [countTrue_replicate_true]
    omega
  have hlen : (List.replicate L.workers.length true).length =
      L.step_counters.length := by
    simp [hc]
  rw [reset_maskpos_eq g ic L _ hnz hlen, reset_none_eq]
  rw [serveMasked_replicate_true g ic L.workers L.workers.length rfl]
  rw [collectMasked_replicate_true
    (L.workers.map (fun w => applyCmd g ic w Cmd.reset)) L.workers.length
    (by simp)]
  rw [show List.replicate L.workers.length true =
      List.replicate L.step_counters.length true by rw [hc]]
  rw [maskZero_replicate_true L.step_counters L.step_counters.length rfl]
  rw [show List.replicate L.step_counters.length true =
      List.replicate L.workers.length true by rw [hc]]
  rw [maskedSends_replicate_true]

/-- Witness for C6 on a concrete one-worker pool. -/
theorem reset_alltrue_eq_reset_none_w :
    BatchedEnv.reset trivGym id (some (trivLive 5)) (some [true]) =
      BatchedEnv.reset trivGym id (some (trivLive 5)) none ∧
    BatchedEnv.reset trivGym id (some (trivLive 5)) none =
      ([(0, Cmd.reset)], .ok (some (trivLive 0), some [()])) :=
  ⟨reset_alltrue_eq_reset_none trivGym id (trivLive 5) 1 rfl rfl
      (by decide),
   rfl⟩

end RLHalite

namespace RLHalite

variable {σ α ω ρ ι : Type}

lemma seedWorkers_trace (g : Gym σ α ω ρ ι) (ic : ι → ι) :
    ∀ (sm : List (Nat × Option Int)) (ws : List (WState σ)),
      (∀ p ∈ sm, p.1 < ws.length) →
      (BatchedEnv.seedWorkers g ic ws sm).1 =
        sm.map (fun p => (p.1, (Cmd.seed p.2 : Cmd α))) := by
  intro sm
  induction sm with
  | nil =>
      intro ws _
      rfl
  | cons kv rest ih =>
      intro ws hvalid
      obtain ⟨id, v⟩ := kv
      have hid : id < ws.length := hvalid (id, v) (by simp)
      simp only [BatchedEnv.seedWorkers, dif_pos hid, List.map_cons]
      rw [ih _ (fun p hp => by
        rw [List.length_set]
        exact hvalid p (by simp [hp]))]

/-- Claim C7 (amended): if `seed_map` is present and non-empty (with valid
worker ids), seed commands go exactly to the listed worker indices, in
order, and to no other worker; if `seed_map` is absent or empty — the
Python truthiness `if seed_map:` treats both alike — a fresh random seed
command is sent to every worker. -/
theorem seed_command_targets
    (g : Gym σ α ω ρ ι) (ic : ι → ι) (L : Live σ) (fresh : Nat → Int) :
    (∀ sm : List (Nat × Option Int), sm ≠ [] →
      (∀ p ∈ sm, p.1 < L.workers.length) →
      (BatchedEnv.seed g ic (some L) (some sm) fresh).1 =
        sm.map (fun p => (p.1, (Cmd.seed p.2 : Cmd α)))) ∧
    ((BatchedEnv.seed g ic (some L) none fresh).1 =
      (List.range L.workers.length).map
        (fun i => (i, (Cmd.seed (some (fresh i)) : Cmd α)))) ∧
    ((BatchedEnv.seed g ic (some L) (some []) fresh).1 =
      (List.range L.workers.length).map
        (fun i => (i, (Cmd.seed (some (fresh i)) : Cmd α)))) := by
  refine ⟨fun sm hne hvalid => ?_, rfl, rfl⟩
  match sm with
  | [] => exact absurd rfl hne
  | kv :: kvs =>
      have ht := seedWorkers_trace g ic (kv :: kvs) L.workers hvalid
      unfold BatchedEnv.seed
      cases h2 : (BatchedEnv.seedWorkers g ic L.workers (kv :: kvs)).2 with
      | ok ws1 =>
          simp only [h2]
          exact ht
      | exn e =>
          simp only [h2]
          exact ht
      | hang =>
          simp only [h2]
          exact ht

/-- Witness for the amended C7 on a concrete two-worker pool. -/
theorem seed_command_targets_w :
    (BatchedEnv.seed trivGym id (some trivLive2)
        (some [(1, some 42)]) (fun _ => 7)).1 = [(1, Cmd.seed (some 42))] ∧
    (BatchedEnv.seed trivGym id (some trivLive2) none (fun _ => 7)).1 =
      [(0, Cmd.seed (some 7)), (1, Cmd.seed (some 7))] ∧
    (BatchedEnv.seed trivGym id (some trivLive2) (some []) (fun _ => 7)).1 =
      [(0, Cmd.seed (some 7)), (1, Cmd.seed (some 7))] :=
  ⟨((seed_command_targets trivGym id trivLive2 (fun _ => 7)).1
      [(1, some 42)] (by decide) (by decide)).trans rfl,
   ((seed_command_targets trivGym id trivLive2 (fun _ => 7)).2.1).trans rfl,
   ((seed_command_targets trivGym id trivLive2 (fun _ => 7)).2.2).trans rfl⟩

/-- Counterexample to claim C7 as stated: the empty seed map maps no worker
index, yet the broadcast branch runs (`if seed_map:` is false for an empty
dict) and seed commands are sent to both workers of a two-worker pool
rather than to no worker. -/
theorem seed_empty_map_cex :
    (BatchedEnv.seed trivGym id (some trivLive2) (some []) (fun _ => 7)).1 =
      [(0, Cmd.seed (some 7)), (1, Cmd.seed (some 7))] ∧
    ([(0, Cmd.seed (some 7)), (1, Cmd.seed (some 7))] : List (Nat × Cmd Unit)) ≠
      [] :=
  ⟨rfl, by decide⟩

/-- Claim C9 (amended): once `close()` has completed (every attribute is
`None`), every subsequent public call fails immediately with a
caller-visible exception, sending nothing to any worker, with one
exception: `reset` with a mask flagging no worker returns the empty result
`None` successfully, because lines 134-137 return before touching any
attribute. -/
theorem post_close_ops_error
    (g : Gym σ α ω ρ ι) (ic : ι → ι) (L : Live σ) (tr : List (Nat × Cmd α))
    (sysC : Sys σ)
    (h : BatchedEnv.close g ic (some L) = (tr, .ok sysC)) :
    (∀ as : List α, BatchedEnv.step g ic sysC as =
      ([], .exn "TypeError: cannot iterate NoneType pipes")) ∧
    (BatchedEnv.reset g ic sysC none =
      ([], .exn "AttributeError: NoneType object has no attribute fill")) ∧
    (∀ m : List Bool, countTrue m ≠ 0 →
      BatchedEnv.reset g ic sysC (some m) =
        ([], .exn "TypeError: NoneType does not support item assignment")) ∧
    (∀ m : List Bool, countTrue m = 0 →
      BatchedEnv.reset g ic sysC (some m) = ([], .ok (sysC, none))) ∧
    (∀ (sm : Option (List (Nat × Option Int))) (fresh : Nat → Int),
      ((BatchedEnv.seed g ic sysC sm fresh).2).isExn = true) ∧
    (∀ ids : Option (List Nat),
      ((BatchedEnv.render g ic sysC ids).2).isExn = true) ∧
    (∀ cfg : Bool × Bool × String × Int,
      ((BatchedEnv.monitor g ic sysC cfg).2).isExn = true) := by
  have hC : sysC = none := by
    unfold BatchedEnv.close at h
    simp only [Prod.mk.injEq, PyOutcome.ok.injEq] at h
    exact h.2.symm
  subst hC
  refine ⟨fun as => rfl, rfl, fun m hm => ?_, fun m hm => reset_maskz_eq g ic none m hm,
    fun sm fresh => ?_, fun ids => ?_, fun cfg => rfl⟩
  · unfold BatchedEnv.reset
    simp [hm]
  · match sm with
    | none => rfl
    | some [] => rfl
    | some (kv :: kvs) => rfl
  · match ids with
    | none => rfl
    | some [] => rfl
    | some (i :: rest) => rfl

/-- Witness for the amended C9 on a concrete closed one-worker pool. -/
theorem post_close_ops_error_w :
    BatchedEnv.close trivGym id (some (trivLive 0)) =
      ([(0, Cmd.close)], .ok none) ∧
    BatchedEnv.step trivGym id (none : Sys Unit) [()] =
      ([], .exn "TypeError: cannot iterate NoneType pipes") ∧
    (BatchedEnv.seed trivGym id (none : Sys Unit)
        (some [(0, some 1)]) (fun _ => 7)).2.isExn = true ∧
    (BatchedEnv.render trivGym id (none : Sys Unit) none).2.isExn = true ∧
    BatchedEnv.reset trivGym id (none : Sys Unit) (some [false]) =
      ([], .ok (none, none)) :=
  ⟨rfl,
   (post_close_ops_error trivGym id (trivLive 0) [(0, Cmd.close)] none rfl).1 [()],
   (post_close_ops_error trivGym id (trivLive 0) [(0, Cmd.close)] none
      rfl).2.2.2.2.1 (some [(0, some 1)]) (fun _ => 7),
   (post_close_ops_error trivGym id (trivLive 0) [(0, Cmd.close)] none
      rfl).2.2.2.2.2.1 none,
   (post_close_ops_error trivGym id (trivLive 0) [(0, Cmd.close)] none
      rfl).2.2.2.1 [false] rfl⟩

/-- Counterexample to claim C9 as stated: after `close()` has completed,
`reset` with an all-false mask does not fail with an invalid-state error
(or any error): it returns the empty result successfully. -/
theorem post_close_reset_allfalse_cex :
    BatchedEnv.close trivGym id (some (trivLive 0)) =
      ([(0, Cmd.close)], .ok none) ∧
    BatchedEnv.reset trivGym id (none : Sys Unit) (some [false]) =
      ([], .ok (none, none)) ∧
    (PyOutcome.ok ((none : Sys Unit), (none : Option (List Unit)))).isExn =
      false :=
  ⟨rfl, rfl, rfl⟩

end RLHalite

namespace Py

lemma getD_append_self : ∀ (l : List PyObj) (x : PyObj),
    (l ++ [x]).getD l.length [] = x := by
  intro l x
  induction l with
  | nil => rfl
  | cons y t ih =>
      simp only [List.cons_append, List.length_cons, List.getD_cons_succ]
      exact ih

/-- Claim C10 (amended): the info payload placed in the `StepResult` is the
shallow copy `info.copy()`: the transmitted top-level dict is a freshly
allocated object — its address is new, distinct from every object of the
simulation heap, in particular from the original info dict — but its
entries are exactly the entries of the original, so every nested mutable
value stays shared with the simulation. -/
theorem info_copy_is_shallow (h : Heap) (a : Nat) :
    (dictCopy h a).2 = h.objs.length ∧
    (dictCopy h a).1.get (dictCopy h a).2 = h.get a ∧
    ∀ b, b < h.objs.length → (dictCopy h a).2 ≠ b := by
  refine ⟨rfl, ?_, fun b hb => ?_⟩
  · exact getD_append_self h.objs (h.objs.getD a [])
  · simp only [dictCopy]
    omega

/-- Witness for the amended C10 on the concrete nested info heap. -/
theorem info_copy_is_shallow_w :
    (dictCopy nestedInfoHeap 0).2 = nestedInfoHeap.objs.length ∧
    (dictCopy nestedInfoHeap 0).1.get (dictCopy nestedInfoHeap 0).2 =
      nestedInfoHeap.get 0 ∧
    (dictCopy nestedInfoHeap 0).2 ≠ 0 :=
  ⟨(info_copy_is_shallow nestedInfoHeap 0).1,
   (info_copy_is_shallow nestedInfoHeap 0).2.1,
   (info_copy_is_shallow nestedInfoHeap 0).2.2 0 (by decide)⟩

/-- Counterexample to claim C10 as stated: for an info dict holding a
nested mutable dict (address 1), the transmitted `info.copy()` still
reaches that nested object of the simulation heap: copy and original share
mutable state at depth one, so the transmitted payload is not a deep copy. -/
theorem info_copy_shares_nested_cex :
    sharesState (dictCopy nestedInfoHeap 0).1 (dictCopy nestedInfoHeap 0).2 0 =
      true ∧
    reachable (dictCopy nestedInfoHeap 0).1 (dictCopy nestedInfoHeap 0).2 =
      [2, 1] ∧
    reachable (dictCopy nestedInfoHeap 0).1 0 = [0, 1] :=
  ⟨by decide, by decide, by decide⟩

end Py
